import Mathlib

/-!
# Verification of the lit_review citation / co-authorship analysis engine

Shallow embedding of `src/lit_review/analysis/citation_analyzer.py` and
`src/lit_review/analysis/coauthorship_analyzer.py`.

Graphs are embedded as insertion-ordered lists of nodes and edges, mirroring
networkx dictionaries (Python dicts preserve insertion order).  Python's
`sorted` is a stable sort, so it is embedded as `List.insertionSort` (stable)
with the reversed comparison for `reverse=True`.  Machine floats appearing in
centrality scores are modelled as exact rationals; no claim under
consideration depends on a float rounding, and the one float-convergence
condition (eigenvector power iteration) is passed to the analysis as an
explicit outcome argument (`Except NxError ...`).

The entity records (`Document`, `Citation`) are modelled from the spec, §6
"Input entity contract", because `lit_review/models.py` is absent from the
provided sources (only its importers are present).
-/

/-- Lowercase a string, character by character (model of Python `str.lower`
for the names appearing here). -/
def lowerStr (s : String) : List Char := s.data.map Char.toLower

/-- `containsSeq p s = true` iff `p` occurs as a contiguous substring of `s`
(model of Python's `in` on strings). -/
def containsSeq : List Char → List Char → Bool
  | [], _ => true
  | _, [] => false
  | p, c :: cs => (p.isPrefixOf (c :: cs)) || containsSeq p cs

/-- Model of Python `query.lower() in name.lower()`. -/
def substrLower (query name : String) : Bool :=
  containsSeq (lowerStr query) (lowerStr name)

/-- Keep the first occurrence of each element (the order in which a Python
dict collects first-seen keys). -/
def dedupFirst {α : Type} [DecidableEq α] (l : List α) : List α :=
  l.foldl (fun acc a => if a ∈ acc then acc else acc ++ [a]) []

/-- Errors raised by the networkx centrality routines that the analyzers
catch.  Only the eigenvector power iteration can fail here. -/
inductive NxError where
  | powerIterationFailedConvergence
deriving DecidableEq

/-- Modelled from the spec: `lit_review/models.py` is absent from `src/`; a
document record per §6 — `{id: integer, title: string, authors: ordered list
of strings, publication_year: optional integer, journal: optional string}`. -/
structure Document where
  id : Nat
  title : String
  authors : List String
  publication_year : Option Int
  journal : Option String
deriving DecidableEq

/-- Modelled from the spec: `lit_review/models.py` is absent from `src/`; a
citation record per §6 — `{citing_document_id: integer, cited_document_id:
optional integer, citation_text: string}`. -/
structure Citation where
  citing_document_id : Nat
  cited_document_id : Option Nat
  citation_text : String
deriving DecidableEq

/-! ## Citation graph (`CitationAnalyzer.build_citation_network`) -/

/-- Node attributes attached by `G.add_node(doc.id, title=..., authors=...,
year=..., journal=...)`. -/
structure DocAttr where
  title : String
  authors : List String
  year : Option Int
  journal : Option String
deriving DecidableEq

/-- A networkx `DiGraph` as built by `build_citation_network`: node ids in
insertion order, the attribute map (only nodes added via `add_node` carry
attributes; endpoints materialised by `add_edge` carry none), and directed
edges `(citing, cited)` with their `citation_text` attribute, in insertion
order and without duplicate pairs (networkx keeps one edge per ordered
pair, updating its attributes on re-insertion). -/
structure CitGraph where
  nodes : List Nat
  attrs : List (Nat × DocAttr)
  edges : List ((Nat × Nat) × String)
deriving DecidableEq

/-- networkx node insertion: append the id if new. -/
def addNodeId (ns : List Nat) (x : Nat) : List Nat :=
  if x ∈ ns then ns else ns ++ [x]

/-- networkx `add_node` with attributes: sets/overwrites the attribute map
entry for the id. -/
def setAttr (l : List (Nat × DocAttr)) (x : Nat) (a : DocAttr) :
    List (Nat × DocAttr) :=
  if l.any (fun p => p.1 == x) then
    l.map (fun p => if p.1 == x then (x, a) else p)
  else l ++ [(x, a)]

/-- `G.add_node(doc.id, title=doc.title, authors=[a.name for a in
doc.authors], year=doc.publication_year, journal=doc.journal)`. -/
def addDocNode (G : CitGraph) (d : Document) : CitGraph :=
  { G with
    nodes := addNodeId G.nodes d.id
    attrs := setAttr G.attrs d.id ⟨d.title, d.authors, d.publication_year, d.journal⟩ }

/-- The loop body `if citation.cited_document_id: G.add_edge(citing, cited,
citation_text=...)`.  The guard is Python truthiness: it skips a record
whose target is `None` and also one whose target is the integer `0` (both
falsy).  networkx `add_edge` first materialises missing endpoint nodes
(with no attributes), then inserts the edge, or — if the ordered pair
already exists — merely updates its attributes. -/
def addCitEdge (G : CitGraph) (c : Citation) : CitGraph :=
  match c.cited_document_id with
  | none => G
  | some t =>
    if t == 0 then G
    else if G.edges.any (fun e => e.1.1 == c.citing_document_id && e.1.2 == t) then
      { G with
        nodes := addNodeId (addNodeId G.nodes c.citing_document_id) t
        edges := G.edges.map (fun e =>
          if e.1.1 == c.citing_document_id && e.1.2 == t then
            (e.1, c.citation_text)
          else e) }
    else
      { G with
        nodes := addNodeId (addNodeId G.nodes c.citing_document_id) t
        edges := G.edges ++ [((c.citing_document_id, t), c.citation_text)] }

/-- `CitationAnalyzer.build_citation_network` over a snapshot of the entity
store (the lists returned by `session.query(Document).all()` and
`session.query(Citation).all()`). -/
def build_citation_network (docs : List Document) (cits : List Citation) :
    CitGraph :=
  cits.foldl addCitEdge (docs.foldl addDocNode ⟨[], [], []⟩)

/-- The edge pair the builder loop will insert for a citation record, if
any: the record passes Python's truthiness guard exactly when its cited id
is non-null and non-zero. -/
def citPair (c : Citation) : Option (Nat × Nat) :=
  match c.cited_document_id with
  | none => none
  | some t => if t == 0 then none else some (c.citing_document_id, t)

/-- Python truthiness of a record's cited id (`if citation.cited_document_id:`):
`None` and `0` are both falsy. -/
def truthyTarget (c : Citation) : Bool :=
  c.cited_document_id.getD 0 != 0

/-- Attribute lookup on the citation graph (`G.nodes[id]`). -/
def attrLookup (G : CitGraph) (x : Nat) : Option DocAttr :=
  (G.attrs.find? (fun p => p.1 == x)).map (fun p => p.2)

/-! ## Generic breadth-first search (model of the networkx shortest-path /
connectivity primitives used by both analyzers) -/

/-- One BFS expansion per fuel unit: `dist` maps discovered nodes to their
distance, `frontier` holds the nodes discovered at distance `d - 1`. -/
def bfsAux {α : Type} [DecidableEq α] (nbr : α → List α) :
    Nat → List (α × Nat) → List α → Nat → List (α × Nat)
  | 0, dist, _, _ => dist
  | fuel + 1, dist, frontier, d =>
    match frontier with
    | [] => dist
    | _ =>
      let fresh := dedupFirst
        ((frontier.flatMap nbr).filter (fun v => !(dist.any (fun p => p.1 == v))))
      bfsAux nbr fuel (dist ++ fresh.map (fun v => (v, d))) fresh (d + 1)

/-- All nodes reachable from `s`, with their unweighted shortest-path
distances.  `fuel` must be at least the number of nodes. -/
def bfsDists {α : Type} [DecidableEq α] (nbr : α → List α) (fuel : Nat)
    (s : α) : List (α × Nat) :=
  bfsAux nbr fuel [(s, 0)] [s] 1

/-- Connectedness of the (projected) graph on `nodes` under neighbour
function `nbr`; networkx raises on the empty graph but is never called
there, so the empty case is arbitrary. -/
def isConnectedBy {α : Type} [DecidableEq α] (nodes : List α)
    (nbr : α → List α) : Bool :=
  match nodes with
  | [] => true
  | v :: _ => nodes.all (fun u => (bfsDists nbr nodes.length v).any (fun p => p.1 == u))

/-- The connected components, each listed from its first-discovered node, in
order of first appearance in `nodes` (the networkx iteration order). -/
def componentsBy {α : Type} [DecidableEq α] (nodes : List α)
    (nbr : α → List α) : List (List α) :=
  nodes.foldl
    (fun acc v =>
      if acc.any (fun comp => comp.contains v) then acc
      else acc ++ [(bfsDists nbr nodes.length v).map (fun p => p.1)]) []

/-- Eccentricity of `s`: greatest BFS distance from `s`. -/
def eccBy {α : Type} [DecidableEq α] (nodes : List α) (nbr : α → List α)
    (s : α) : Nat :=
  ((bfsDists nbr nodes.length s).map (fun p => p.2)).foldl max 0

/-- `nx.diameter`: longest shortest path over all pairs (meaningful on a
connected graph, where the caller guarantees connectedness). -/
def diameterBy {α : Type} [DecidableEq α] (nodes : List α)
    (nbr : α → List α) : Nat :=
  (nodes.map (eccBy nodes nbr)).foldl max 0

/-- `nx.average_shortest_path_length` on a connected graph: the mean of
`d(s, t)` over ordered pairs; `0` for a single-node graph. -/
def avgPathLenBy {α : Type} [DecidableEq α] (nodes : List α)
    (nbr : α → List α) : ℚ :=
  let n := nodes.length
  if n ≤ 1 then 0
  else
    ((nodes.map (fun s =>
        (((bfsDists nbr n s).map (fun p => (p.2 : ℚ))).sum))).sum) /
      ((n : ℚ) * ((n : ℚ) - 1))

/-! ## Citation-pattern analysis (`CitationAnalyzer.analyze_citation_patterns`) -/

/-- Out-neighbours respecting edge direction. -/
def citOutNbr (G : CitGraph) (u : Nat) : List Nat :=
  G.edges.filterMap (fun e => if e.1.1 == u then some e.1.2 else none)

/-- Neighbours of the undirected projection (`G.to_undirected()` /
weak-connectivity sense). -/
def citNbrU (G : CitGraph) (u : Nat) : List Nat :=
  dedupFirst (G.edges.filterMap (fun e =>
    if e.1.1 == u then some e.1.2
    else if e.1.2 == u then some e.1.1 else none))

/-- In-degree of a node of the citation graph. -/
def citInDeg (G : CitGraph) (u : Nat) : Nat :=
  G.edges.countP (fun e => e.1.2 == u)

/-- Out-degree of a node of the citation graph. -/
def citOutDeg (G : CitGraph) (u : Nat) : Nat :=
  G.edges.countP (fun e => e.1.1 == u)

/-- `nx.in_degree_centrality`, as the insertion-ordered item list of the
returned dict: `indeg / (n - 1)`, or `1` for every node when `n ≤ 1`. -/
def inDegCentralityItems (G : CitGraph) : List (Nat × ℚ) :=
  let n := G.nodes.length
  G.nodes.map (fun v =>
    (v, if n ≤ 1 then 1 else (citInDeg G v : ℚ) / ((n : ℚ) - 1)))

/-- `nx.out_degree_centrality`, analogously. -/
def outDegCentralityItems (G : CitGraph) : List (Nat × ℚ) :=
  let n := G.nodes.length
  G.nodes.map (fun v =>
    (v, if n ≤ 1 then 1 else (citOutDeg G v : ℚ) / ((n : ℚ) - 1)))

/-- One damped PageRank power-iteration step (damping `0.85`, dangling mass
spread uniformly), over exact rationals. -/
def prStep (G : CitGraph) (x : List (Nat × ℚ)) : List (Nat × ℚ) :=
  let n : ℚ := G.nodes.length
  let damping : ℚ := 85 / 100
  let dangling : ℚ :=
    (x.filter (fun p => citOutDeg G p.1 == 0)).foldl (fun a p => a + p.2) 0
  G.nodes.map (fun v =>
    let inSum : ℚ := x.foldl (fun a p =>
      if G.edges.any (fun e => e.1.1 == p.1 && e.1.2 == v) then
        a + p.2 / (citOutDeg G p.1 : ℚ)
      else a) 0
    (v, (1 - damping) / n + damping * (inSum + dangling / n)))

/-- Iterate `prStep`. -/
def prIter (G : CitGraph) : Nat → List (Nat × ℚ) → List (Nat × ℚ)
  | 0, x => x
  | fuel + 1, x => prIter G fuel (prStep G x)

/-- `nx.pagerank(G)`: modelled as the full standard iteration bound (100
steps) from the uniform vector; the float tolerance early exit is not
modelled — per spec §4.2 PageRank "always converges for finite graphs under
the standard iteration bound", and no claim inspects its values. -/
def pagerankItems (G : CitGraph) : List (Nat × ℚ) :=
  prIter G 100 (G.nodes.map (fun v => (v, 1 / (G.nodes.length : ℚ))))

/-- `sorted(d.items(), key=lambda x: x[1], reverse=True)[:5]` over a dict in
node-insertion order: stable descending sort by score, then truncate. -/
def top5 (items : List (Nat × ℚ)) : List (Nat × ℚ) :=
  (items.insertionSort (fun x y => y.2 ≤ x.2)).take 5

/-- The result dict of `analyze_citation_patterns`; `Option` fields model
keys that the method only sometimes inserts. -/
structure CitationAnalysis where
  total_papers : Nat
  total_citations : Nat
  average_citations_per_paper : ℚ
  most_cited_by_in_degree : Option (List (Nat × ℚ)) := none
  most_citing_by_out_degree : Option (List (Nat × ℚ)) := none
  highest_pagerank : Option (List (Nat × ℚ)) := none
  is_connected : Option Bool := none
  diameter : Option Nat := none
  connected_components : Option Nat := none
deriving DecidableEq

/-- `CitationAnalyzer.analyze_citation_patterns`.  The centrality and
PageRank calls are total on the graphs reaching them, so the enclosing
`try`/`except` never fires and is not represented. -/
def analyze_citation_patterns (docs : List Document) (cits : List Citation) :
    CitationAnalysis :=
  let G := build_citation_network docs cits
  let n := G.nodes.length
  let base : CitationAnalysis :=
    { total_papers := n
      total_citations := G.edges.length
      average_citations_per_paper :=
        if n > 0 then (G.edges.length : ℚ) / (n : ℚ) else 0 }
  if n > 0 then
    let base := { base with
      most_cited_by_in_degree := some (top5 (inDegCentralityItems G))
      most_citing_by_out_degree := some (top5 (outDegCentralityItems G))
      highest_pagerank := some (top5 (pagerankItems G)) }
    if isConnectedBy G.nodes (citNbrU G) then
      { base with
        is_connected := some true
        diameter := some (diameterBy G.nodes (citNbrU G)) }
    else
      { base with
        is_connected := some false
        connected_components := some (componentsBy G.nodes (citNbrU G)).length }
  else base

/-! ## Co-authorship graph (`CoAuthorshipAnalyzer.build_coauthorship_network`) -/

/-- The per-paper record the builder appends to node and edge attribute
lists: `{'id': doc.id, 'title': doc.title, 'year': doc.publication_year}`. -/
structure Paper where
  id : Nat
  title : String
  year : Option Int
deriving DecidableEq

/-- Author-node attributes (`papers=[], total_papers=0` at creation). -/
structure AuthorAttr where
  papers : List Paper
  total_papers : Nat
deriving DecidableEq

/-- A weighted undirected collaboration edge with its shared-paper list. -/
structure CoEdge where
  a : String
  b : String
  weight : Nat
  papers : List Paper
deriving DecidableEq

/-- A networkx `Graph` as built by `build_coauthorship_network`: author
nodes with attributes in insertion order, and undirected edges in insertion
order (at most one edge per unordered pair). -/
structure CoGraph where
  nodes : List (String × AuthorAttr)
  edges : List CoEdge
deriving DecidableEq

/-- The projection of a document stored in attribute lists. -/
def paperOf (d : Document) : Paper := ⟨d.id, d.title, d.publication_year⟩

/-- The unconditional tail of the per-author builder loop: append this
paper to the author's list and bump `total_papers`. -/
def bumpAuthor (d : Document) (author : String) (G : CoGraph) : CoGraph :=
  { G with
    nodes := G.nodes.map (fun p =>
      if p.1 == author then
        (p.1, ⟨p.2.papers ++ [paperOf d], p.2.total_papers + 1⟩)
      else p) }

/-- Per-author half of the builder loop: create the node if absent, then
append this paper and bump `total_papers`. -/
def addAuthorNode (d : Document) (G : CoGraph) (author : String) : CoGraph :=
  bumpAuthor d author
    (if G.nodes.any (fun p => p.1 == author) then G
     else { G with nodes := G.nodes ++ [(author, ⟨[], 0⟩)] })

/-- Does edge `e` connect the unordered pair `{x, y}`? -/
def matchesEdge (e : CoEdge) (x y : String) : Bool :=
  (e.a == x && e.b == y) || (e.a == y && e.b == x)

/-- The pair half of the builder loop: `G[a1][a2]['weight'] += 1` and paper
append if the (undirected) edge exists, else `G.add_edge(a1, a2, weight=1,
papers=[...])`.  Both endpoints are already nodes here — every author of the
document was added by `addAuthorNode` first — so the node-materialising step
of networkx `add_edge` is a no-op and not represented. -/
def addPairEdge (d : Document) (G : CoGraph) (pr : String × String) : CoGraph :=
  if G.edges.any (fun e => matchesEdge e pr.1 pr.2) then
    { G with edges := G.edges.map (fun e =>
        if matchesEdge e pr.1 pr.2 then
          { e with weight := e.weight + 1, papers := e.papers ++ [paperOf d] }
        else e) }
  else
    { G with edges := G.edges ++ [⟨pr.1, pr.2, 1, [paperOf d]⟩] }

/-- `for i, author1 in enumerate(authors): for author2 in authors[i+1:]`. -/
def pairsOf : List String → List (String × String)
  | [] => []
  | x :: rest => rest.map (fun y => (x, y)) ++ pairsOf rest

/-- Process one document: author nodes first, then all index pairs. -/
def processDoc (G : CoGraph) (d : Document) : CoGraph :=
  (pairsOf d.authors).foldl (addPairEdge d) (d.authors.foldl (addAuthorNode d) G)

/-- `CoAuthorshipAnalyzer.build_coauthorship_network` over a snapshot of the
entity store. -/
def build_coauthorship_network (docs : List Document) : CoGraph :=
  docs.foldl processDoc ⟨[], []⟩

/-- The author names, in node insertion order (`G.nodes()`). -/
def nodeNames (G : CoGraph) : List String := G.nodes.map (fun p => p.1)

/-- Attribute lookup (`G.nodes[author]`); the callers below only use it on
existing nodes, so the default is never reached. -/
def attrOf (G : CoGraph) (author : String) : AuthorAttr :=
  ((G.nodes.find? (fun p => p.1 == author)).map (fun p => p.2)).getD ⟨[], 0⟩

/-- `G.neighbors(author)`: the adjacent nodes in edge insertion order (a
self-loop contributes the node itself once). -/
def neighborsOf (G : CoGraph) (u : String) : List String :=
  G.edges.filterMap (fun e =>
    if e.a == u then some e.b else if e.b == u then some e.a else none)

/-- First edge connecting the unordered pair, if any. -/
def findEdge (G : CoGraph) (u v : String) : Option CoEdge :=
  G.edges.find? (fun e => matchesEdge e u v)

/-- `G[u][v]['weight']`, or `0` when no edge exists. -/
def weightOf (G : CoGraph) (u v : String) : Nat :=
  ((findEdge G u v).map (fun e => e.weight)).getD 0

/-- `G[u][v]['papers']`, or `[]` when no edge exists. -/
def edgePapers (G : CoGraph) (u v : String) : List Paper :=
  ((findEdge G u v).map (fun e => e.papers)).getD []

/-- `G.degree(u)`: incident edge endpoints (a self-loop counts twice). -/
def degreeOf (G : CoGraph) (u : String) : Nat :=
  G.edges.foldl (fun n e =>
    n + (if e.a == u then 1 else 0) + (if e.b == u then 1 else 0)) 0

/-- One collaborator entry (`{'name', 'collaboration_count', 'shared_papers'}`). -/
structure Collaborator where
  name : String
  collaboration_count : Nat
  shared_papers : List Paper
deriving DecidableEq

/-- The collaborator list of an author, in neighbour iteration order. -/
def collaboratorsOf (G : CoGraph) (u : String) : List Collaborator :=
  (neighborsOf G u).map (fun v => ⟨v, weightOf G u v, edgePapers G u v⟩)

/-- `sorted(collaborators, key=lambda x: x['collaboration_count'], reverse=True)`. -/
def sortCollabDesc (l : List Collaborator) : List Collaborator :=
  l.insertionSort (fun x y => y.collaboration_count ≤ x.collaboration_count)

/-! ## Author centrality (`CoAuthorshipAnalyzer.analyze_author_centrality`) -/

/-- `nx.degree_centrality`: `degree / (n - 1)` per node, `1` per node when
`n ≤ 1`, as the insertion-ordered item list. -/
def degCentralityItems (G : CoGraph) : List (String × ℚ) :=
  let n := G.nodes.length
  (nodeNames G).map (fun v =>
    (v, if n ≤ 1 then 1 else (degreeOf G v : ℚ) / ((n : ℚ) - 1)))

/-- All simple paths from `s` to `t` avoiding `visited`, with at most
`fuel` nodes. -/
def simplePathsAux (nbr : String → List String) :
    Nat → String → String → List String → List (List String)
  | 0, _, _, _ => []
  | fuel + 1, s, t, visited =>
    if s == t then [[s]]
    else
      ((nbr s).filter (fun v => !((s :: visited).contains v))).flatMap
        (fun v => (simplePathsAux nbr fuel v t (s :: visited)).map (fun p => s :: p))

/-- All simple `s`–`t` paths of the graph. -/
def simplePaths (G : CoGraph) (s t : String) : List (List String) :=
  simplePathsAux (neighborsOf G) G.nodes.length s t []

/-- Length (in nodes) of the shortest `s`–`t` path, or `n + 1` when none. -/
def shortestLen (G : CoGraph) (s t : String) : Nat :=
  ((simplePaths G s t).map (fun p => p.length)).foldl min (G.nodes.length + 1)

/-- Number of shortest `s`–`t` paths. -/
def sigmaST (G : CoGraph) (s t : String) : Nat :=
  (simplePaths G s t).countP (fun p => p.length == shortestLen G s t)

/-- Number of shortest `s`–`t` paths passing through `v` as an interior
node. -/
def sigmaSTV (G : CoGraph) (s t v : String) : Nat :=
  (simplePaths G s t).countP (fun p =>
    p.length == shortestLen G s t && (p.drop 1).dropLast.contains v)

/-- `nx.betweenness_centrality` (normalized, undirected): the shortest-path
pair-dependency sum over ordered pairs with both endpoints distinct from
`v`, rescaled by `1 / ((n-1)(n-2))` for `n > 2`; pairs with no path
contribute `0`. -/
def betweennessOf (G : CoGraph) (v : String) : ℚ :=
  let n := G.nodes.length
  let raw : ℚ :=
    ((nodeNames G).flatMap (fun s => (nodeNames G).map (fun t => (s, t)))).foldl
      (fun acc st =>
        if st.1 == v || st.2 == v || st.1 == st.2 then acc
        else
          let sig := sigmaST G st.1 st.2
          if sig == 0 then acc
          else acc + (sigmaSTV G st.1 st.2 v : ℚ) / (sig : ℚ)) 0
  if n > 2 then raw / (((n : ℚ) - 1) * ((n : ℚ) - 2)) else raw

/-- Item list of `nx.betweenness_centrality(G)`. -/
def betweennessItems (G : CoGraph) : List (String × ℚ) :=
  (nodeNames G).map (fun v => (v, betweennessOf G v))

/-- `nx.closeness_centrality` (with the Wasserman–Faust reachable-share
factor, the networkx default): unreachable nodes are excluded from the
average rather than treated as infinitely distant. -/
def closenessOf (G : CoGraph) (v : String) : ℚ :=
  let n := G.nodes.length
  let dists := bfsDists (neighborsOf G) n v
  let r := dists.length
  let tot := (dists.map (fun p => p.2)).sum
  if tot > 0 ∧ n > 1 then
    (((r : ℚ) - 1) / (tot : ℚ)) * (((r : ℚ) - 1) / ((n : ℚ) - 1))
  else 0

/-- Item list of `nx.closeness_centrality(G)`. -/
def closenessItems (G : CoGraph) : List (String × ℚ) :=
  (nodeNames G).map (fun v => (v, closenessOf G v))

/-- `sorted(d.items(), key=lambda x: x[1], reverse=True)[:10]`. -/
def top10 (items : List (String × ℚ)) : List (String × ℚ) :=
  (items.insertionSort (fun x y => y.2 ≤ x.2)).take 10

/-- The result dict of `analyze_author_centrality`; `Option` fields model
keys that the method only sometimes inserts, and the empty record models
the `{}` returned on an empty graph or a caught error. -/
structure CentralityAnalysis where
  total_authors : Option Nat := none
  total_collaborations : Option Nat := none
  average_collaborators_per_author : Option ℚ := none
  top_by_degree_centrality : Option (List (String × ℚ)) := none
  top_by_betweenness_centrality : Option (List (String × ℚ)) := none
  top_by_closeness_centrality : Option (List (String × ℚ)) := none
  top_by_eigenvector_centrality : Option (List (String × ℚ)) := none
  is_connected : Option Bool := none
  diameter : Option Nat := none
  average_path_length : Option ℚ := none
  connected_components : Option Nat := none
  largest_component_size : Option Nat := none
  largest_component_diameter : Option Nat := none
deriving DecidableEq

/-- The `{}` result. -/
def emptyAnalysis : CentralityAnalysis := {}

/-- The first component of maximal size (`max(nx.connected_components(G),
key=len)` returns the first maximum in iteration order). -/
def largestComponent (G : CoGraph) : List String :=
  match componentsBy (nodeNames G) (neighborsOf G) with
  | [] => []
  | c :: cs => cs.foldl (fun best c2 => if best.length < c2.length then c2 else best) c

/-- `G.subgraph(S)`: induced subgraph, preserving node and edge order. -/
def subgraphOn (G : CoGraph) (S : List String) : CoGraph :=
  { nodes := G.nodes.filter (fun p => S.contains p.1)
    edges := G.edges.filter (fun e => S.contains e.a && S.contains e.b) }

/-- `CoAuthorshipAnalyzer.analyze_author_centrality`.

The degree, betweenness and closeness computations are total; the
eigenvector power iteration (`nx.eigenvector_centrality(G, max_iter=1000)`)
is float-based and may raise `PowerIterationFailedConvergence`, so its
outcome is an explicit argument `eig` (`.ok` carries the returned item
list).  The method wraps everything in one `try`; on any raised error it
logs and returns `{}`, which is what the `.error` branch reproduces: the
centralities computed before the raise are discarded with the whole dict. -/
def analyze_author_centrality (G : CoGraph)
    (eig : Except NxError (List (String × ℚ))) : CentralityAnalysis :=
  if G.nodes.length == 0 then emptyAnalysis
  else
    match eig with
    | .error _ => emptyAnalysis
    | .ok eigItems =>
      let n := G.nodes.length
      let base : CentralityAnalysis :=
        { total_authors := some n
          total_collaborations := some G.edges.length
          average_collaborators_per_author :=
            some ((2 * (G.edges.length : ℚ)) / (n : ℚ))
          top_by_degree_centrality := some (top10 (degCentralityItems G))
          top_by_betweenness_centrality := some (top10 (betweennessItems G))
          top_by_closeness_centrality := some (top10 (closenessItems G))
          top_by_eigenvector_centrality := some (top10 eigItems) }
      if isConnectedBy (nodeNames G) (neighborsOf G) then
        { base with
          is_connected := some true
          diameter := some (diameterBy (nodeNames G) (neighborsOf G))
          average_path_length := some (avgPathLenBy (nodeNames G) (neighborsOf G)) }
      else
        { base with
          is_connected := some false
          connected_components :=
            some (componentsBy (nodeNames G) (neighborsOf G)).length
          largest_component_size := some (largestComponent G).length
          largest_component_diameter :=
            some (diameterBy (nodeNames (subgraphOn G (largestComponent G)))
              (neighborsOf (subgraphOn G (largestComponent G)))) }

/-! ## Profile service (`get_author_profile`, `get_most_collaborative_authors`,
`get_most_cited_papers`) -/

/-- `sorted(papers, key=lambda x: x.get('year', 0), reverse=True)`.

The paper dicts always carry a `'year'` key (set to `doc.publication_year`,
possibly `None`, by the builder), so the `0` default of `.get` is dead code
and the sort key is the stored optional year itself.  Python 3 raises
`TypeError` on any `<` comparison involving `None`; a sort of two or more
elements performs at least one comparison with every element, hence it
raises exactly when the list has length at least 2 and some paper has no
year, and otherwise sorts descending (stably) by the integer year. -/
def sortPapersYearDesc (papers : List Paper) : Except String (List Paper) :=
  if papers.length ≤ 1 then .ok papers
  else if papers.any (fun p => p.year.isNone) then .error "TypeError"
  else .ok (papers.insertionSort (fun p q => q.year.getD 0 ≤ p.year.getD 0))

/-- `sorted(list(set(p.get('year') for p in papers if p.get('year'))))`:
Python truthiness drops both `None` and year `0`; the set deduplicates; the
outer sort is ascending. -/
def yearsActive (papers : List Paper) : List Int :=
  (((papers.filterMap (fun p => p.year)).filter (fun y => y ≠ 0)).dedup).insertionSort
    (fun a b => a ≤ b)

/-- The success payload of `get_author_profile`. -/
structure AuthorProfile where
  name : String
  total_papers : Nat
  collaborative_papers : Nat
  solo_papers : Nat
  unique_collaborators : Nat
  collaboration_rate : ℚ
  papers : List Paper
  collaborators : List Collaborator
  top_collaborators : List Collaborator
  years_active : List Int
deriving DecidableEq

/-- `get_author_profile` returns either the structured not-found dict
(`{'error': ...}`) or a full profile dict. -/
inductive ProfileResult where
  | notFound (msg : String)
  | profile (p : AuthorProfile)
deriving DecidableEq

/-- Lines 339–349 of the analyzer: collect the case-insensitive substring
matches over the node set, then prefer an exact match, else the first
match in node iteration order; `none` when nothing matches. -/
def resolveAuthor (G : CoGraph) (name : String) : Option String :=
  match (nodeNames G).filter (fun n => substrLower name n) with
  | [] => none
  | m :: ms => if (m :: ms).contains name then some name else some m

/-- The `collaborative_papers` sum of the profile: a paper counts as
collaborative when some collaborator shares a paper with its id. -/
def collabCount (G : CoGraph) (author : String) : Nat :=
  (attrOf G author).papers.countP (fun paper =>
    (sortCollabDesc (collaboratorsOf G author)).any
      (fun c => c.shared_papers.any (fun p => p.id == paper.id)))

/-- The successfully built profile dict (lines 376–387), given the sorted
paper list. -/
def profileRecord (G : CoGraph) (author : String) (sortedPapers : List Paper) :
    AuthorProfile :=
  { name := author
    total_papers := (attrOf G author).papers.length
    collaborative_papers := collabCount G author
    solo_papers := (attrOf G author).papers.length - collabCount G author
    unique_collaborators := (sortCollabDesc (collaboratorsOf G author)).length
    collaboration_rate :=
      if (attrOf G author).papers.length > 0 then
        (collabCount G author : ℚ) / ((attrOf G author).papers.length : ℚ)
      else 0
    papers := sortedPapers
    collaborators := sortCollabDesc (collaboratorsOf G author)
    top_collaborators := (sortCollabDesc (collaboratorsOf G author)).take 10
    years_active := yearsActive (attrOf G author).papers }

/-- The profile dict built for a resolved author (lines 354–387).  The
`papers` entry sorts by year and is the one fallible step (see
`sortPapersYearDesc`); the `Except.error` carries the Python `TypeError`. -/
def profileOf (G : CoGraph) (author : String) : Except String ProfileResult :=
  match sortPapersYearDesc (attrOf G author).papers with
  | .error e => .error e
  | .ok sortedPapers => .ok (.profile (profileRecord G author sortedPapers))

/-- `CoAuthorshipAnalyzer.get_author_profile`: builds the graph, resolves
the name, and returns the not-found dict (never raising) when no node
matches; the redundant `if author not in G.nodes()` re-check of the source
is kept. -/
def get_author_profile (docs : List Document) (name : String) :
    Except String ProfileResult :=
  match resolveAuthor (build_coauthorship_network docs) name with
  | none => .ok (.notFound ("Author \"" ++ name ++ "\" not found"))
  | some author =>
    if (nodeNames (build_coauthorship_network docs)).contains author then
      profileOf (build_coauthorship_network docs) author
    else .ok (.notFound ("Author \"" ++ author ++ "\" not found in network"))

/-- One ranked entry of `get_most_collaborative_authors`. -/
structure AuthorRank where
  name : String
  total_papers : Nat
  unique_collaborators : Nat
  total_collaborations : Nat
  collaboration_rate : ℚ
  collaborators : List Collaborator
deriving DecidableEq

/-- `CoAuthorshipAnalyzer.get_most_collaborative_authors`: per-author
metrics in node order, then a stable descending sort by
`unique_collaborators` truncated to `limit`. -/
def get_most_collaborative_authors (docs : List Document) (limit : Nat) :
    List AuthorRank :=
  let G := build_coauthorship_network docs
  let authors_data := G.nodes.map (fun p =>
    let degree := degreeOf G p.1
    { name := p.1
      total_papers := p.2.total_papers
      unique_collaborators := degree
      total_collaborations := ((neighborsOf G p.1).map (weightOf G p.1)).sum
      collaboration_rate :=
        if p.2.total_papers > 0 then (degree : ℚ) / (p.2.total_papers : ℚ) else 0
      collaborators := sortCollabDesc (collaboratorsOf G p.1) : AuthorRank })
  (authors_data.insertionSort
    (fun x y => y.unique_collaborators ≤ x.unique_collaborators)).take limit

/-- `CitationAnalyzer.get_most_cited_papers`.

The source builds its aggregate as `session.query(Citation).filter(...)
.count().label('count')`: SQLAlchemy `Query.count()` executes immediately
and returns a plain `int`, and `int` has no `.label` attribute, so the
method raises `AttributeError` while constructing the query — before any
row is examined — for every store state and every `limit`.  The embedding
therefore returns that error unconditionally. -/
def get_most_cited_papers (_docs : List Document) (_cits : List Citation)
    (_limit : Nat) : Except String (List (Nat × Nat)) :=
  .error "AttributeError: int object has no attribute label"

/-! ## Concrete snapshots used by witnesses and counterexamples -/

/-- A two-author single-document snapshot (non-empty graph). -/
def pairDocSnapshot : List Document := [⟨1, "T", ["A", "B"], some 2020, none⟩]

/-- Scenario B of the spec: `D1=[Smith, Jones]`, `D2=[Jones, Lee]`,
`D3=[Smith]`. -/
def scenarioBDocs : List Document :=
  [⟨1, "D1", ["Smith", "Jones"], some 2020, none⟩,
   ⟨2, "D2", ["Jones", "Lee"], some 2021, none⟩,
   ⟨3, "D3", ["Smith"], some 2022, none⟩]

/-- A document snapshot in which author `A` has one dated and one undated
paper. -/
def mixedYearDocs : List Document :=
  [⟨1, "T1", ["A"], some 2020, none⟩, ⟨2, "T2", ["A"], none, none⟩]

/-- A snapshot in which author `A` has two undated papers. -/
def undatedDocs : List Document :=
  [⟨1, "T1", ["A"], none, none⟩, ⟨2, "T2", ["A"], none, none⟩]

/-- Scenario D of the spec: a corpus whose only authors are `John Smith`
and `Mary Jones`. -/
def scenarioDDocs : List Document :=
  [⟨1, "T", ["John Smith", "Mary Jones"], some 2000, none⟩]

/-- A document whose author list repeats the same name. -/
def dupAuthorDocs : List Document := [⟨1, "T", ["Smith", "Smith"], none, none⟩]

/-- A disconnected collaboration snapshot: component `{A, B}` and component
`{C, D, E}` (path `D`–`C`–`E`). -/
def disconnectedDocs : List Document :=
  [⟨1, "T", ["A", "B"], none, none⟩,
   ⟨2, "U", ["C", "D"], none, none⟩,
   ⟨3, "V", ["C", "E"], none, none⟩]

/-- A single citation record from id 1 to id 2, neither id a document. -/
def danglingCitation : Citation := ⟨1, some 2, "x"⟩

/-- A citation record whose cited id is the non-null but Python-falsy `0`. -/
def zeroTargetCitation : Citation := ⟨1, some 0, "x"⟩

/-! ## Claim C1 -/

/-- C1, counterexample: on the non-empty two-author graph, when the
eigenvector computation fails the analysis drops the sibling metrics too —
`top_by_degree_centrality` (and every count) comes back absent, refuting
"every sibling metric is still computed and returned". -/
theorem C1_counterexample :
    (analyze_author_centrality (build_coauthorship_network pairDocSnapshot)
        (Except.error NxError.powerIterationFailedConvergence)).top_by_degree_centrality
        = none ∧
    (analyze_author_centrality (build_coauthorship_network pairDocSnapshot)
        (Except.error NxError.powerIterationFailedConvergence)).total_authors = none ∧
    (build_coauthorship_network pairDocSnapshot).nodes.length = 2 := by
  refine ⟨by decide, by decide, by decide⟩

/-- C1, amended: `analyze_author_centrality` wraps all metric computations
in a single `try`; when the eigenvector power iteration fails to converge,
the raised error is caught and the whole result is the empty dict — the
eigenvector ranking and every sibling metric (degree, betweenness,
closeness, counts, connectivity) are all omitted together. -/
theorem C1_amended (G : CoGraph) (e : NxError) :
    analyze_author_centrality G (Except.error e) = emptyAnalysis := by
  unfold analyze_author_centrality
  cases h : (G.nodes.length == 0) <;> simp [h]

/-! ## Claim C2 -/

/-- C2, counterexample: on the empty corpus, `analyze_author_centrality`
returns the empty dict — its count fields are absent rather than zero —
and `analyze_citation_patterns` omits its ranking lists entirely rather
than returning them present-and-empty. -/
theorem C2_counterexample :
    (analyze_author_centrality (build_coauthorship_network [])
        (Except.ok [])).total_authors = none ∧
    (analyze_citation_patterns [] []).most_cited_by_in_degree = none := by
  exact ⟨rfl, rfl⟩

/-- C2, amended: on the empty corpus no overview call raises:
`analyze_citation_patterns` returns zero counts with the
average-citations ratio `0` (not a division error) but with its ranking
and connectivity fields absent, and `analyze_author_centrality` returns
the empty dict (no count, ratio or ranking fields at all), whatever the
eigenvector outcome would have been. -/
theorem C2_amended :
    analyze_citation_patterns [] [] =
      { total_papers := 0, total_citations := 0, average_citations_per_paper := 0 } ∧
    ∀ eig : Except NxError (List (String × ℚ)),
      analyze_author_centrality (build_coauthorship_network []) eig = emptyAnalysis := by
  exact ⟨rfl, fun eig => rfl⟩

/-! ## Claim C4 -/

/-- C4: `get_most_cited_papers` raises `AttributeError` while constructing
its SQLAlchemy aggregate (`Query.count()` yields a plain `int`, which has
no `.label`), for every store state — here evaluated at the empty store —
while `get_most_collaborative_authors` does behave as specified: on
Scenario B it ranks Jones (2 unique collaborators) first. -/
theorem C4_evaluation :
    get_most_cited_papers [] [] 10 =
      Except.error "AttributeError: int object has no attribute label" ∧
    ((get_most_collaborative_authors scenarioBDocs 10).head?.map
        (fun r => r.name)) = some "Jones" ∧
    ((get_most_collaborative_authors scenarioBDocs 10).head?.map
        (fun r => r.unique_collaborators)) = some 2 := by
  refine ⟨rfl, by decide, by decide⟩

/-! ## Claim C5 -/

/-- C5: evaluating `get_author_profile` at an author with one dated and one
undated paper: the sort key `x.get('year', 0)` is the always-present
`'year'` value (`None` for the undated paper), so Python raises
`TypeError` instead of sorting the undated paper as year `0`. -/
theorem C5_evaluation :
    get_author_profile mixedYearDocs "A" = Except.error "TypeError" ∧
    (attrOf (build_coauthorship_network mixedYearDocs) "A").papers.length = 2 ∧
    (attrOf (build_coauthorship_network mixedYearDocs) "A").papers.any
      (fun p => p.year.isNone) = true := by
  refine ⟨rfl, by decide, by decide⟩

/-! ## Claim C3: edge multiset of the citation graph -/

/-- The ordered pairs of the citation graph's edges. -/
def edgePairsOf (G : CitGraph) : List (Nat × Nat) :=
  G.edges.map (fun e => e.1)

/-- The effect of one citation record on the edge-pair list. -/
def accPairs (acc : List (Nat × Nat)) (c : Citation) : List (Nat × Nat) :=
  match citPair c with
  | none => acc
  | some p => if p ∈ acc then acc else acc ++ [p]

theorem any_pair_iff (G : CitGraph) (u v : Nat) :
    (G.edges.any (fun e => e.1.1 == u && e.1.2 == v)) = true ↔
      (u, v) ∈ edgePairsOf G := by
  rw [List.any_eq_true]
  unfold edgePairsOf
  rw [List.mem_map]
  constructor
  · rintro ⟨e, he, hpe⟩
    simp only [Bool.and_eq_true, beq_iff_eq] at hpe
    exact ⟨e, he, Prod.ext_iff.mpr ⟨hpe.1, hpe.2⟩⟩
  · rintro ⟨e, he, hpe⟩
    refine ⟨e, he, ?_⟩
    simp only [Bool.and_eq_true, beq_iff_eq]
    exact ⟨by rw [hpe], by rw [hpe]⟩

theorem edgePairs_addCitEdge (G : CitGraph) (c : Citation) :
    edgePairsOf (addCitEdge G c) = accPairs (edgePairsOf G) c := by
  unfold addCitEdge accPairs citPair
  cases hc : c.cited_document_id with
  | none => rfl
  | some t =>
    dsimp only
    by_cases ht0 : (t == 0) = true
    · rw [if_pos ht0, if_pos ht0]
    · rw [if_neg ht0, if_neg ht0]
      have hopt : (match some (c.citing_document_id, t) with
          | none => edgePairsOf G
          | some p => if p ∈ edgePairsOf G then edgePairsOf G else edgePairsOf G ++ [p])
          = if (c.citing_document_id, t) ∈ edgePairsOf G then edgePairsOf G
            else edgePairsOf G ++ [(c.citing_document_id, t)] := rfl
      rw [hopt]
      by_cases hmem : (c.citing_document_id, t) ∈ edgePairsOf G
      · have hany : (G.edges.any
            (fun e => e.1.1 == c.citing_document_id && e.1.2 == t)) = true :=
          (any_pair_iff G c.citing_document_id t).mpr hmem
        rw [if_pos hany, if_pos hmem]
        unfold edgePairsOf
        simp only [List.map_map]
        refine List.map_congr_left (fun e he => ?_)
        simp only [Function.comp_apply]
        split <;> rfl
      · have hany : ¬ (G.edges.any
            (fun e => e.1.1 == c.citing_document_id && e.1.2 == t)) = true :=
          fun hh => hmem ((any_pair_iff G c.citing_document_id t).mp hh)
        rw [if_neg hany, if_neg hmem]
        unfold edgePairsOf
        simp

theorem edgePairs_foldl (cits : List Citation) (G : CitGraph) :
    edgePairsOf (cits.foldl addCitEdge G) = cits.foldl accPairs (edgePairsOf G) := by
  induction cits generalizing G with
  | nil => rfl
  | cons c rest ih =>
    simp only [List.foldl_cons, ih, edgePairs_addCitEdge]

theorem edges_doc_fold (docs : List Document) (G : CitGraph) :
    (docs.foldl addDocNode G).edges = G.edges := by
  induction docs generalizing G with
  | nil => rfl
  | cons d rest ih => simpa using ih (addDocNode G d)

theorem mem_foldl_accPairs (cits : List Citation) (acc : List (Nat × Nat))
    (x : Nat × Nat) :
    x ∈ cits.foldl accPairs acc ↔ x ∈ acc ∨ x ∈ cits.filterMap citPair := by
  induction cits generalizing acc with
  | nil => simp
  | cons c rest ih =>
    simp only [List.foldl_cons, ih]
    unfold accPairs
    cases hc : citPair c with
    | none => simp [List.filterMap_cons, hc]
    | some p =>
      by_cases hp : p ∈ acc
      · simp only [if_pos hp, List.filterMap_cons, hc, List.mem_cons]
        constructor
        · rintro (h | h)
          · exact Or.inl h
          · exact Or.inr (Or.inr h)
        · rintro (h | h | h)
          · exact Or.inl h
          · exact Or.inl (h ▸ hp)
          · exact Or.inr h
      · simp only [if_neg hp, List.filterMap_cons, hc, List.mem_cons, List.mem_append,
          List.mem_singleton]
        tauto

theorem nodup_foldl_accPairs (cits : List Citation) (acc : List (Nat × Nat))
    (h : acc.Nodup) : (cits.foldl accPairs acc).Nodup := by
  induction cits generalizing acc with
  | nil => exact h
  | cons c rest ih =>
    refine ih _ ?_
    unfold accPairs
    cases citPair c with
    | none => exact h
    | some p =>
      by_cases hp : p ∈ acc
      · simpa [hp] using h
      · simp only [if_neg hp]
        exact List.nodup_append.mpr ⟨h, List.nodup_singleton p,
          fun a ha hb => hp ((List.mem_singleton.mp hb) ▸ ha)⟩

theorem foldl_addCitEdge_filter (cits : List Citation) (G : CitGraph) :
    cits.foldl addCitEdge G = (cits.filter truthyTarget).foldl addCitEdge G := by
  induction cits generalizing G with
  | nil => rfl
  | cons c rest ih =>
    cases hc : c.cited_document_id with
    | none =>
      have hskip : addCitEdge G c = G := by
        unfold addCitEdge; rw [hc]
      have hfil : (c :: rest).filter truthyTarget = rest.filter truthyTarget := by
        simp [List.filter_cons, truthyTarget, hc]
      rw [List.foldl_cons, hskip, hfil, ih]
    | some t =>
      by_cases ht0 : t = 0
      · subst ht0
        have hskip : addCitEdge G c = G := by
          unfold addCitEdge
          rw [hc]
          rfl
        have hfil : (c :: rest).filter truthyTarget = rest.filter truthyTarget := by
          simp [List.filter_cons, truthyTarget, hc]
        rw [List.foldl_cons, hskip, hfil, ih]
      · have hfil : (c :: rest).filter truthyTarget =
            c :: rest.filter truthyTarget := by
          simp [List.filter_cons, truthyTarget, hc, ht0]
        rw [List.foldl_cons, hfil, List.foldl_cons, ih]

/-- C3, counterexample: two identical resolved citation records produce a
single graph edge, so the edge count (1) differs from the resolved-record
count (2). -/
theorem C3_counterexample :
    (build_citation_network [] [danglingCitation, danglingCitation]).edges.length = 1 ∧
    ([danglingCitation, danglingCitation].filter
        (fun c => c.cited_document_id.isSome)).length = 2 ∧
    (build_citation_network [] [danglingCitation, danglingCitation]).edges.length ≠
      ([danglingCitation, danglingCitation].filter
        (fun c => c.cited_document_id.isSome)).length := by
  refine ⟨by decide, by decide, by decide⟩

/-- C3, amended: the edge count of `build_citation_network` equals the
number of *distinct* `(citing, cited)` pairs among the citation records
that pass the loop's Python truthiness guard — cited id non-null *and*
non-zero (networkx keeps one edge per ordered pair, so duplicate such
records collapse; when those pairs are distinct this is exactly the count
of guard-passing records) — and records with a falsy target (null, or the
integer 0) contribute nothing at all: dropping them leaves the graph
unchanged. -/
theorem C3_amended (docs : List Document) (cits : List Citation) :
    (build_citation_network docs cits).edges.length =
      ((cits.filterMap citPair).toFinset).card ∧
    build_citation_network docs cits =
      build_citation_network docs (cits.filter truthyTarget) := by
  constructor
  · have hlen : (build_citation_network docs cits).edges.length =
        (edgePairsOf (build_citation_network docs cits)).length := by
      unfold edgePairsOf; rw [List.length_map]
    rw [hlen]
    unfold build_citation_network
    rw [edgePairs_foldl]
    have hbase : edgePairsOf (docs.foldl addDocNode ⟨[], [], []⟩) = [] := by
      unfold edgePairsOf
      rw [edges_doc_fold]
      rfl
    rw [hbase]
    have hnodup : (cits.foldl accPairs ([] : List (Nat × Nat))).Nodup :=
      nodup_foldl_accPairs cits [] List.nodup_nil
    have hfin : (cits.foldl accPairs ([] : List (Nat × Nat))).toFinset =
        (cits.filterMap citPair).toFinset := by
      apply Finset.ext
      intro a
      rw [List.mem_toFinset, List.mem_toFinset, mem_foldl_accPairs]
      simp
    rw [← List.toFinset_card_of_nodup hnodup, hfin]
  · unfold build_citation_network
    exact foldl_addCitEdge_filter cits _

/-! ## Claim C9: nodes materialised by citation edges -/

theorem mem_addNodeId_self (ns : List Nat) (x : Nat) : x ∈ addNodeId ns x := by
  unfold addNodeId
  by_cases h : x ∈ ns
  · rwa [if_pos h]
  · rw [if_neg h]
    exact List.mem_append.mpr (Or.inr (List.mem_singleton.mpr rfl))

theorem mem_addNodeId_of_mem (ns : List Nat) (x y : Nat) (h : y ∈ ns) :
    y ∈ addNodeId ns x := by
  unfold addNodeId
  by_cases hx : x ∈ ns
  · rwa [if_pos hx]
  · rw [if_neg hx]
    exact List.mem_append.mpr (Or.inl h)

theorem nodes_addCitEdge_mono (G : CitGraph) (c : Citation) (y : Nat)
    (h : y ∈ G.nodes) : y ∈ (addCitEdge G c).nodes := by
  unfold addCitEdge
  cases hc : c.cited_document_id with
  | none => exact h
  | some t =>
    dsimp only
    split
    · exact h
    · split
      · exact mem_addNodeId_of_mem _ _ _ (mem_addNodeId_of_mem _ _ _ h)
      · exact mem_addNodeId_of_mem _ _ _ (mem_addNodeId_of_mem _ _ _ h)

theorem nodes_addCitEdge_endpoints (G : CitGraph) (c : Citation) (t : Nat)
    (hc : c.cited_document_id = some t) (ht0 : t ≠ 0) :
    c.citing_document_id ∈ (addCitEdge G c).nodes ∧ t ∈ (addCitEdge G c).nodes := by
  unfold addCitEdge
  rw [hc]
  dsimp only
  rw [if_neg (by simp [ht0])]
  constructor
  · split
    · exact mem_addNodeId_of_mem _ _ _ (mem_addNodeId_self _ _)
    · exact mem_addNodeId_of_mem _ _ _ (mem_addNodeId_self _ _)
  · split
    · exact mem_addNodeId_self _ _
    · exact mem_addNodeId_self _ _

theorem nodes_foldl_mono (cits : List Citation) (G : CitGraph) (y : Nat)
    (h : y ∈ G.nodes) : y ∈ (cits.foldl addCitEdge G).nodes := by
  induction cits generalizing G with
  | nil => exact h
  | cons c rest ih => exact ih _ (nodes_addCitEdge_mono G c y h)

theorem nodes_foldl_endpoints (cits : List Citation) (G : CitGraph)
    (c : Citation) (hc : c ∈ cits) (t : Nat) (ht : c.cited_document_id = some t)
    (ht0 : t ≠ 0) :
    c.citing_document_id ∈ (cits.foldl addCitEdge G).nodes ∧
      t ∈ (cits.foldl addCitEdge G).nodes := by
  induction cits generalizing G with
  | nil => cases hc
  | cons c0 rest ih =>
    rcases List.mem_cons.mp hc with h0 | h0
    · subst h0
      rw [List.foldl_cons]
      obtain ⟨h1, h2⟩ := nodes_addCitEdge_endpoints G c t ht ht0
      exact ⟨nodes_foldl_mono rest _ _ h1, nodes_foldl_mono rest _ _ h2⟩
    · rw [List.foldl_cons]
      exact ih _ h0

theorem attrs_addCitEdge (G : CitGraph) (c : Citation) :
    (addCitEdge G c).attrs = G.attrs := by
  unfold addCitEdge
  cases hc : c.cited_document_id with
  | none => rfl
  | some t =>
    dsimp only
    split
    · rfl
    · split <;> rfl

theorem attrs_foldl (cits : List Citation) (G : CitGraph) :
    (cits.foldl addCitEdge G).attrs = G.attrs := by
  induction cits generalizing G with
  | nil => rfl
  | cons c rest ih => rw [List.foldl_cons, ih, attrs_addCitEdge]

theorem mem_setAttr (l : List (Nat × DocAttr)) (x : Nat) (a : DocAttr)
    (p : Nat × DocAttr) (h : p ∈ setAttr l x a) :
    p.1 ∈ l.map (fun q => q.1) ∨ p.1 = x := by
  unfold setAttr at h
  by_cases hx : (l.any (fun p => p.1 == x)) = true
  · rw [if_pos hx] at h
    rcases List.mem_map.mp h with ⟨q, hq, hqe⟩
    by_cases hcond : (q.1 == x) = true
    · right
      rw [if_pos hcond] at hqe
      rw [← hqe]
    · left
      rw [if_neg hcond] at hqe
      exact List.mem_map.mpr ⟨q, hq, by rw [hqe]⟩
  · rw [if_neg hx] at h
    rcases List.mem_append.mp h with h1 | h1
    · exact Or.inl (List.mem_map.mpr ⟨p, h1, rfl⟩)
    · right
      rw [List.mem_singleton.mp h1]

theorem attrs_doc_fold_keys (docs : List Document) (G : CitGraph)
    (p : Nat × DocAttr) (h : p ∈ (docs.foldl addDocNode G).attrs) :
    p.1 ∈ G.attrs.map (fun q => q.1) ∨ p.1 ∈ docs.map (fun d => d.id) := by
  induction docs generalizing G with
  | nil => exact Or.inl (List.mem_map.mpr ⟨p, h, rfl⟩)
  | cons d rest ih =>
    rw [List.foldl_cons] at h
    rcases ih (addDocNode G d) h with h1 | h1
    · rcases List.mem_map.mp h1 with ⟨q, hq, hqe⟩
      rcases mem_setAttr G.attrs d.id _ q hq with h2 | h2
      · exact Or.inl (hqe ▸ h2)
      · exact Or.inr (List.mem_map.mpr ⟨d, List.mem_cons_self _ _, by rw [← hqe, h2]⟩)
    · exact Or.inr (List.mem_map.mpr (by
        rcases List.mem_map.mp h1 with ⟨d0, hd0, hde⟩
        exact ⟨d0, List.mem_cons_of_mem _ hd0, hde⟩))

theorem attrLookup_build_none (docs : List Document) (cits : List Citation)
    (x : Nat) (hx : x ∉ docs.map (fun d => d.id)) :
    attrLookup (build_citation_network docs cits) x = none := by
  unfold attrLookup build_citation_network
  rw [attrs_foldl]
  have hnone : ((docs.foldl addDocNode ⟨[], [], []⟩).attrs.find?
      (fun p => p.1 == x)) = none := by
    rw [List.find?_eq_none]
    intro p hp hpx
    have hx1 : p.1 = x := beq_iff_eq.mp hpx
    rcases attrs_doc_fold_keys docs _ p hp with h1 | h1
    · simp at h1
    · exact hx (hx1 ▸ h1)
  rw [hnone]
  rfl

/-- C9, counterexample: a record whose cited id is the non-null integer `0`
fails the loop's Python truthiness guard, so the code adds no edge and no
nodes at all — over an empty document set the graph stays empty, and in
particular the citing id 1 does not become a node, refuting the universal
claim for records with merely non-null targets. -/
theorem C9_counterexample :
    zeroTargetCitation.cited_document_id = some 0 ∧
    (build_citation_network [] [zeroTargetCitation]).nodes = [] ∧
    (1 : Nat) ∉ (build_citation_network [] [zeroTargetCitation]).nodes := by
  refine ⟨rfl, by decide, by decide⟩

/-- C9, amended: every citation record passing the loop's truthiness guard
(cited id non-null and non-zero) forces both its citing and cited ids into
the node set of the citation graph, even when no document carries that id —
in which case the node has no title/authors/year/journal attributes — and
consequently `total_papers` (the node count) can exceed the number of
documents, as the concrete snapshot with zero documents and one dangling
citation shows (`total_papers = 2 > 0`). -/
theorem C9_nodes :
    (∀ (docs : List Document) (cits : List Citation) (c : Citation),
      c ∈ cits → ∀ t, c.cited_document_id = some t → t ≠ 0 →
        c.citing_document_id ∈ (build_citation_network docs cits).nodes ∧
        t ∈ (build_citation_network docs cits).nodes ∧
        (c.citing_document_id ∉ docs.map (fun d => d.id) →
          attrLookup (build_citation_network docs cits) c.citing_document_id = none) ∧
        (t ∉ docs.map (fun d => d.id) →
          attrLookup (build_citation_network docs cits) t = none)) ∧
    (analyze_citation_patterns [] [danglingCitation]).total_papers = 2 ∧
    ([] : List Document).length = 0 := by
  refine ⟨?_, by decide, rfl⟩
  intro docs cits c hc t ht ht0
  obtain ⟨h1, h2⟩ := nodes_foldl_endpoints cits _ c hc t ht ht0
  exact ⟨h1, h2,
    fun hx => attrLookup_build_none docs cits _ hx,
    fun hx => attrLookup_build_none docs cits _ hx⟩

/-- C9, witness: the dangling citation `1 → 2` over an empty document set
materialises both ids as attribute-free nodes. -/
theorem C9_witness :
    1 ∈ (build_citation_network [] [danglingCitation]).nodes ∧
    2 ∈ (build_citation_network [] [danglingCitation]).nodes ∧
    attrLookup (build_citation_network [] [danglingCitation]) 1 = none ∧
    attrLookup (build_citation_network [] [danglingCitation]) 2 = none := by
  obtain ⟨h1, h2, h3, h4⟩ :=
    C9_nodes.1 [] [danglingCitation] danglingCitation (by decide) 2 rfl (by decide)
  exact ⟨h1, h2, h3 (by decide), h4 (by decide)⟩

/-! ## Claim C6: collaboration edge weights and self-loops -/

/-- Unordered equality of the pairs `{x, y}` and `{a, b}`. -/
def samePair (x y a b : String) : Prop := (x = a ∧ y = b) ∨ (x = b ∧ y = a)

instance samePairDecidable (x y a b : String) : Decidable (samePair x y a b) := by
  unfold samePair
  infer_instance

theorem samePair_symm (x y a b : String) (h : samePair x y a b) :
    samePair a b x y := by
  rcases h with ⟨h1, h2⟩ | ⟨h1, h2⟩
  · exact Or.inl ⟨h1.symm, h2.symm⟩
  · exact Or.inr ⟨h2.symm, h1.symm⟩

theorem samePair_swapL (u v a b : String) (h : samePair u v a b) :
    samePair v u a b := by
  rcases h with ⟨h1, h2⟩ | ⟨h1, h2⟩
  · exact Or.inr ⟨h2, h1⟩
  · exact Or.inl ⟨h2, h1⟩

theorem samePair_trans (u v x y a b : String) (h1 : samePair u v x y)
    (h2 : samePair u v a b) : samePair x y a b := by
  rcases h1 with ⟨rfl, rfl⟩ | ⟨rfl, rfl⟩
  · exact h2
  · exact samePair_swapL _ _ _ _ h2

theorem matchesEdge_iff (e : CoEdge) (x y : String) :
    matchesEdge e x y = true ↔ samePair e.a e.b x y := by
  unfold matchesEdge samePair
  simp only [Bool.or_eq_true, Bool.and_eq_true, beq_iff_eq]

theorem matchesEdge_congr (e : CoEdge) (x y a b : String)
    (h : samePair x y a b) : matchesEdge e x y = matchesEdge e a b := by
  unfold matchesEdge
  rcases h with ⟨rfl, rfl⟩ | ⟨rfl, rfl⟩
  · rfl
  · exact Bool.or_comm _ _

theorem countPCongr {α : Type} (l : List α) (p q : α → Bool)
    (h : ∀ a ∈ l, p a = q a) : l.countP p = l.countP q := by
  induction l with
  | nil => rfl
  | cons a l ih =>
    rw [List.countP_cons, List.countP_cons, ih (fun b hb => h b (List.mem_cons_of_mem _ hb)),
      h a (List.mem_cons_self _ _)]

theorem findqCongr {α : Type} (l : List α) (p q : α → Bool)
    (h : ∀ a ∈ l, p a = q a) : l.find? p = l.find? q := by
  induction l with
  | nil => rfl
  | cons a l ih =>
    cases hpa : p a with
    | true =>
      rw [List.find?_cons_of_pos _ hpa,
        List.find?_cons_of_pos _ ((h a (List.mem_cons_self _ _)) ▸ hpa)]
    | false =>
      rw [List.find?_cons_of_neg _ (by simp [hpa]),
        List.find?_cons_of_neg _ (by simp [← h a (List.mem_cons_self _ _), hpa]),
        ih (fun b hb => h b (List.mem_cons_of_mem _ hb))]

theorem weightOf_pair_congr (x y a b : String) (h : samePair x y a b)
    (G : CoGraph) : weightOf G x y = weightOf G a b := by
  unfold weightOf findEdge
  rw [findqCongr G.edges _ _ (fun e _ => matchesEdge_congr e x y a b h)]

theorem weightOf_eq_of_edges (G H : CoGraph) (a b : String)
    (h : G.edges = H.edges) : weightOf G a b = weightOf H a b := by
  unfold weightOf findEdge
  rw [h]

/-- The endpoint test is untouched by the weight/papers update of
`addPairEdge`. -/
theorem matchesEdge_upd (d : Document) (x y a b : String) (e : CoEdge) :
    matchesEdge (if matchesEdge e x y = true then
        { e with weight := e.weight + 1, papers := e.papers ++ [paperOf d] }
      else e) a b = matchesEdge e a b := by
  split <;> rfl

theorem weightOf_addPairEdge_self (d : Document) (G : CoGraph) (x y : String) :
    weightOf (addPairEdge d G (x, y)) x y = weightOf G x y + 1 := by
  unfold addPairEdge weightOf findEdge
  by_cases hany : (G.edges.any (fun e => matchesEdge e x y)) = true
  · rw [if_pos hany]
    dsimp only
    rw [List.find?_map]
    rw [findqCongr _ _ _ (fun e _ => by
      simp only [Function.comp_apply]
      exact matchesEdge_upd d x y x y e)]
    cases hf : G.edges.find? (fun e => matchesEdge e x y) with
    | none =>
      rcases List.any_eq_true.mp hany with ⟨e, he, hpe⟩
      exact absurd hpe (by simpa using List.find?_eq_none.mp hf e he)
    | some e0 =>
      have hp0 := List.find?_some hf
      simp only [Option.map_some', Option.getD_some]
      show (if matchesEdge e0 x y = true then
          { e0 with weight := e0.weight + 1, papers := e0.papers ++ [paperOf d] }
        else e0).weight = e0.weight + 1
      rw [if_pos hp0]
  · rw [if_neg hany]
    dsimp only
    have hnone : G.edges.find? (fun e => matchesEdge e x y) = none := by
      rw [List.find?_eq_none]
      intro e he hpe
      exact hany (List.any_eq_true.mpr ⟨e, he, hpe⟩)
    have hnew : matchesEdge ⟨x, y, 1, [paperOf d]⟩ x y = true := by
      unfold matchesEdge
      simp
    rw [List.find?_append, hnone,
      @List.find?_cons_of_pos _ (fun e => matchesEdge e x y) ⟨x, y, 1, [paperOf d]⟩ [] hnew]
    rfl

theorem weightOf_addPairEdge_other (d : Document) (G : CoGraph) (x y a b : String)
    (h : ¬ samePair x y a b) :
    weightOf (addPairEdge d G (x, y)) a b = weightOf G a b := by
  unfold addPairEdge weightOf findEdge
  by_cases hany : (G.edges.any (fun e => matchesEdge e x y)) = true
  · rw [if_pos hany]
    dsimp only
    rw [List.find?_map]
    rw [findqCongr _ _ _ (fun e _ => by
      simp only [Function.comp_apply]
      exact matchesEdge_upd d x y a b e)]
    cases hf : G.edges.find? (fun e => matchesEdge e a b) with
    | none => rfl
    | some e0 =>
      have hp0 := List.find?_some hf
      have hne : matchesEdge e0 x y = false := by
        cases hxy : matchesEdge e0 x y with
        | false => rfl
        | true =>
          exact absurd (samePair_trans e0.a e0.b x y a b
            ((matchesEdge_iff e0 x y).mp hxy) ((matchesEdge_iff e0 a b).mp hp0)) h
      simp only [Option.map_some', Option.getD_some]
      show (if matchesEdge e0 x y = true then
          { e0 with weight := e0.weight + 1, papers := e0.papers ++ [paperOf d] }
        else e0).weight = e0.weight
      rw [if_neg (by simp [hne])]
  · rw [if_neg hany]
    dsimp only
    have hnew : matchesEdge ⟨x, y, 1, [paperOf d]⟩ a b = false := by
      cases hm : matchesEdge ⟨x, y, 1, [paperOf d]⟩ a b with
      | false => rfl
      | true => exact absurd ((matchesEdge_iff _ a b).mp hm) (by
          simpa using h)
    rw [List.find?_append,
      @List.find?_cons_of_neg _ (fun e => matchesEdge e a b) ⟨x, y, 1, [paperOf d]⟩ []
        (by simp [hnew]), List.find?_nil, Option.or_none]

theorem weightOf_pairs_foldl (d : Document) (ps : List (String × String))
    (G : CoGraph) (a b : String) :
    weightOf (ps.foldl (addPairEdge d) G) a b =
      weightOf G a b + ps.countP (fun pr => decide (samePair pr.1 pr.2 a b)) := by
  induction ps generalizing G with
  | nil => simp
  | cons pr rest ih =>
    rcases pr with ⟨x, y⟩
    rw [List.foldl_cons, ih, List.countP_cons]
    by_cases hp : samePair x y a b
    · have hstep : weightOf (addPairEdge d G (x, y)) a b = weightOf G a b + 1 := by
        rw [← weightOf_pair_congr x y a b hp, weightOf_addPairEdge_self,
          weightOf_pair_congr x y a b hp]
      rw [hstep, decide_eq_true hp]
      simp only [if_true, eq_self_iff_true]
      omega
    · rw [weightOf_addPairEdge_other d G x y a b hp, decide_eq_false hp]
      rw [if_neg (by simp)]
      omega

theorem countP_decide_eq_of_nodup (r : List String) (b : String) (h : r.Nodup) :
    r.countP (fun y => decide (y = b)) = if b ∈ r then 1 else 0 := by
  induction r with
  | nil => simp
  | cons z r ih =>
    rw [List.nodup_cons] at h
    rw [List.countP_cons, ih h.2]
    by_cases hz : z = b
    · subst hz
      simp [h.1]
    · simp [hz, Ne.symm hz, List.mem_cons]

theorem pairsOf_countP (l : List String) (a b : String) (hnd : l.Nodup)
    (hab : a ≠ b) :
    (pairsOf l).countP (fun pr => decide (samePair pr.1 pr.2 a b)) =
      if a ∈ l ∧ b ∈ l then 1 else 0 := by
  induction l with
  | nil => simp [pairsOf]
  | cons x r ih =>
    rw [List.nodup_cons] at hnd
    unfold pairsOf
    rw [List.countP_append, List.countP_map, ih hnd.2]
    by_cases hxa : x = a
    · subst hxa
      have hcnt : r.countP ((fun pr => decide (samePair pr.1 pr.2 x b)) ∘
          (fun y => (x, y))) = r.countP (fun y => decide (y = b)) := by
        refine countPCongr _ _ _ (fun y hy => ?_)
        simp only [Function.comp_apply]
        refine decide_eq_decide.mpr ?_
        unfold samePair
        constructor
        · rintro (⟨_, h2⟩ | ⟨h1, _⟩)
          · exact h2
          · exact absurd h1 hab
        · intro hyb
          exact Or.inl ⟨rfl, hyb⟩
      rw [hcnt, countP_decide_eq_of_nodup r b hnd.2]
      by_cases hbmem : b ∈ r
      · simp [hbmem, hnd.1, List.mem_cons]
      · simp [hbmem, hnd.1, Ne.symm hab, List.mem_cons]
    · by_cases hxb : x = b
      · subst hxb
        have hcnt : r.countP ((fun pr => decide (samePair pr.1 pr.2 a x)) ∘
            (fun y => (x, y))) = r.countP (fun y => decide (y = a)) := by
          refine countPCongr _ _ _ (fun y hy => ?_)
          simp only [Function.comp_apply]
          refine decide_eq_decide.mpr ?_
          unfold samePair
          constructor
          · rintro (⟨h1, _⟩ | ⟨_, h2⟩)
            · exact absurd h1 hxa
            · exact h2
          · intro hya
            exact Or.inr ⟨rfl, hya⟩
        rw [hcnt, countP_decide_eq_of_nodup r a hnd.2]
        by_cases hamem : a ∈ r
        · simp [hamem, hnd.1, hab, List.mem_cons]
        · simp [hamem, hnd.1, hab, List.mem_cons]
      · have hax : a ≠ x := fun h => hxa h.symm
        have hbx : b ≠ x := fun h => hxb h.symm
        have hcnt : r.countP ((fun pr => decide (samePair pr.1 pr.2 a b)) ∘
            (fun y => (x, y))) = 0 := by
          rw [List.countP_eq_zero]
          intro y hy
          simp only [Function.comp_apply, decide_eq_true_eq]
          rintro (⟨h1, _⟩ | ⟨h1, _⟩)
          · exact hxa h1
          · exact hxb h1
        rw [hcnt]
        simp [List.mem_cons, hax, hbx]

theorem edges_addAuthorNode (d : Document) (G : CoGraph) (a : String) :
    (addAuthorNode d G a).edges = G.edges := by
  unfold addAuthorNode bumpAuthor
  split <;> rfl

theorem edges_authors_foldl (d : Document) (authors : List String) (G : CoGraph) :
    (authors.foldl (addAuthorNode d) G).edges = G.edges := by
  induction authors generalizing G with
  | nil => rfl
  | cons a rest ih => rw [List.foldl_cons, ih, edges_addAuthorNode]

theorem weightOf_processDoc (G : CoGraph) (d : Document) (a b : String)
    (hnd : d.authors.Nodup) (hab : a ≠ b) :
    weightOf (processDoc G d) a b =
      weightOf G a b + (if a ∈ d.authors ∧ b ∈ d.authors then 1 else 0) := by
  unfold processDoc
  rw [weightOf_pairs_foldl,
    weightOf_eq_of_edges _ G a b (edges_authors_foldl d d.authors G),
    pairsOf_countP d.authors a b hnd hab]

theorem weightOf_build_foldl (docs : List Document) (G : CoGraph) (a b : String)
    (h : ∀ d ∈ docs, d.authors.Nodup) (hab : a ≠ b) :
    weightOf (docs.foldl processDoc G) a b =
      weightOf G a b +
        docs.countP (fun d => decide (a ∈ d.authors ∧ b ∈ d.authors)) := by
  induction docs generalizing G with
  | nil => simp
  | cons d rest ih =>
    rw [List.foldl_cons, ih _ (fun d0 hd0 => h d0 (List.mem_cons_of_mem _ hd0)),
      weightOf_processDoc G d a b (h d (List.mem_cons_self _ _)) hab,
      List.countP_cons]
    by_cases hmem : a ∈ d.authors ∧ b ∈ d.authors
    · rw [if_pos hmem, decide_eq_true hmem]
      simp only [if_true, eq_self_iff_true]
      omega
    · rw [if_neg hmem, decide_eq_false hmem, if_neg (by simp)]
      omega

theorem pairsOf_ne (l : List String) (h : l.Nodup) :
    ∀ pr ∈ pairsOf l, pr.1 ≠ pr.2 := by
  induction l with
  | nil => intro pr hpr; cases hpr
  | cons x r ih =>
    rw [List.nodup_cons] at h
    intro pr hpr
    unfold pairsOf at hpr
    rcases List.mem_append.mp hpr with h1 | h1
    · rcases List.mem_map.mp h1 with ⟨y, hy, hye⟩
      rw [← hye]
      exact fun heq => h.1 ((show x = y from heq) ▸ hy)
    · exact ih h.2 pr h1

theorem noSelfLoop_addPairEdge (d : Document) (G : CoGraph) (x y : String)
    (hxy : x ≠ y) (h : ∀ e ∈ G.edges, e.a ≠ e.b) :
    ∀ e ∈ (addPairEdge d G (x, y)).edges, e.a ≠ e.b := by
  unfold addPairEdge
  by_cases hany : (G.edges.any (fun e => matchesEdge e (x, y).1 (x, y).2)) = true
  · rw [if_pos hany]
    intro e he
    rcases List.mem_map.mp he with ⟨e0, he0, he0e⟩
    rw [← he0e]
    have := h e0 he0
    split <;> exact this
  · rw [if_neg hany]
    intro e he
    rcases List.mem_append.mp he with h1 | h1
    · exact h e h1
    · rw [List.mem_singleton.mp h1]
      exact hxy

theorem noSelfLoop_pairs_foldl (d : Document) (ps : List (String × String))
    (G : CoGraph) (hps : ∀ pr ∈ ps, pr.1 ≠ pr.2)
    (h : ∀ e ∈ G.edges, e.a ≠ e.b) :
    ∀ e ∈ (ps.foldl (addPairEdge d) G).edges, e.a ≠ e.b := by
  induction ps generalizing G with
  | nil => exact h
  | cons pr rest ih =>
    rw [List.foldl_cons]
    refine ih _ (fun pr0 hpr0 => hps pr0 (List.mem_cons_of_mem _ hpr0)) ?_
    rcases pr with ⟨x, y⟩
    exact noSelfLoop_addPairEdge d G x y (hps (x, y) (List.mem_cons_self _ _)) h

theorem noSelfLoop_processDoc (G : CoGraph) (d : Document)
    (hnd : d.authors.Nodup) (h : ∀ e ∈ G.edges, e.a ≠ e.b) :
    ∀ e ∈ (processDoc G d).edges, e.a ≠ e.b := by
  unfold processDoc
  refine noSelfLoop_pairs_foldl d _ _ (pairsOf_ne d.authors hnd) ?_
  rw [edges_authors_foldl]
  exact h

theorem noSelfLoop_build_foldl (docs : List Document) (G : CoGraph)
    (h : ∀ d ∈ docs, d.authors.Nodup) (hG : ∀ e ∈ G.edges, e.a ≠ e.b) :
    ∀ e ∈ (docs.foldl processDoc G).edges, e.a ≠ e.b := by
  induction docs generalizing G with
  | nil => exact hG
  | cons d rest ih =>
    rw [List.foldl_cons]
    exact ih _ (fun d0 hd0 => h d0 (List.mem_cons_of_mem _ hd0))
      (noSelfLoop_processDoc G d (h d (List.mem_cons_self _ _)) hG)

/-- C6, counterexample: a document whose author list repeats a name
(`["Smith", "Smith"]`, representable in the §6 entity contract) makes the
builder's `i < j` index loop emit the pair (Smith, Smith), creating a
self-loop edge — refuting "no node ever carries a self-loop, for every
input snapshot". -/
theorem C6_counterexample :
    (build_coauthorship_network dupAuthorDocs).edges.any
      (fun e => e.a == e.b) = true := by
  decide

/-- C6, amended: for snapshots in which no document lists the same author
name twice (the intended shape of the entity data), the weight of the
collaboration edge between two distinct authors equals the number of
documents they share — each shared document contributes exactly 1 — and no
edge of the built graph is a self-loop. -/
theorem C6_amended (docs : List Document) (h : ∀ d ∈ docs, d.authors.Nodup) :
    (∀ a b : String, a ≠ b →
      weightOf (build_coauthorship_network docs) a b =
        docs.countP (fun d => decide (a ∈ d.authors ∧ b ∈ d.authors))) ∧
    (∀ e ∈ (build_coauthorship_network docs).edges, e.a ≠ e.b) := by
  constructor
  · intro a b hab
    unfold build_coauthorship_network
    rw [weightOf_build_foldl docs ⟨[], []⟩ a b h hab]
    have h0 : weightOf ⟨[], []⟩ a b = 0 := rfl
    rw [h0, Nat.zero_add]
  · exact noSelfLoop_build_foldl docs ⟨[], []⟩ h (fun e he => by cases he)

/-- C6, witness: on Scenario B, Smith–Jones has weight 1 (their one shared
document) and Smith–Lee has weight 0 (no shared document). -/
theorem C6_witness :
    weightOf (build_coauthorship_network scenarioBDocs) "Smith" "Jones" =
      scenarioBDocs.countP
        (fun d => decide ("Smith" ∈ d.authors ∧ "Jones" ∈ d.authors)) ∧
    weightOf (build_coauthorship_network scenarioBDocs) "Smith" "Jones" = 1 ∧
    weightOf (build_coauthorship_network scenarioBDocs) "Smith" "Lee" = 0 := by
  have h := C6_amended scenarioBDocs (by decide)
  refine ⟨h.1 "Smith" "Jones" (by decide), ?_, ?_⟩
  · rw [h.1 "Smith" "Jones" (by decide)]
    decide
  · rw [h.1 "Smith" "Lee" (by decide)]
    decide

/-! ## Claims C7 and C10: author-name resolution -/

theorem isPrefixOfB_self (l : List Char) : l.isPrefixOf l = true := by
  induction l with
  | nil => rfl
  | cons c cs ih => simp [List.isPrefixOf, ih]

theorem containsSeq_self (l : List Char) : containsSeq l l = true := by
  cases l with
  | nil => rfl
  | cons c cs =>
    unfold containsSeq
    rw [isPrefixOfB_self]
    rfl

theorem substrLower_self (n : String) : substrLower n n = true := by
  unfold substrLower
  exact containsSeq_self _

theorem containsSeq_nil (l : List Char) : containsSeq [] l = true := by
  cases l <;> rfl

theorem substrLower_empty (n : String) : substrLower "" n = true := by
  unfold substrLower
  exact containsSeq_nil _

theorem resolveAuthor_exact (G : CoGraph) (name : String)
    (h : name ∈ nodeNames G) : resolveAuthor G name = some name := by
  unfold resolveAuthor
  have hmem : name ∈ (nodeNames G).filter (fun n => substrLower name n) :=
    List.mem_filter.mpr ⟨h, substrLower_self name⟩
  cases hm : (nodeNames G).filter (fun n => substrLower name n) with
  | nil => rw [hm] at hmem; cases hmem
  | cons m ms =>
    rw [hm] at hmem
    dsimp only
    rw [if_pos (List.elem_iff.mpr hmem)]

theorem resolveAuthor_first_match (G : CoGraph) (name : String)
    (h : name ∉ nodeNames G) :
    resolveAuthor G name =
      ((nodeNames G).filter (fun n => substrLower name n)).head? := by
  unfold resolveAuthor
  cases hm : (nodeNames G).filter (fun n => substrLower name n) with
  | nil => rfl
  | cons m ms =>
    dsimp only
    have hnot : ¬ ((m :: ms).contains name = true) := by
      intro hc
      have : name ∈ (nodeNames G).filter (fun n => substrLower name n) := by
        rw [hm]
        exact List.elem_iff.mp hc
      exact h (List.mem_filter.mp this).1
    rw [if_neg hnot]
    rfl

/-- C7: `get_author_profile` resolves an exact node name to itself, resolves
a non-exact query to the first case-insensitive substring match in node
iteration order, and — when nothing matches — returns the structured
not-found record (an `Except.ok` value, never a raised error). -/
theorem C7_resolution (docs : List Document) (name : String) :
    (name ∈ nodeNames (build_coauthorship_network docs) →
      resolveAuthor (build_coauthorship_network docs) name = some name) ∧
    (name ∉ nodeNames (build_coauthorship_network docs) →
      resolveAuthor (build_coauthorship_network docs) name =
        ((nodeNames (build_coauthorship_network docs)).filter
          (fun n => substrLower name n)).head?) ∧
    (((nodeNames (build_coauthorship_network docs)).filter
        (fun n => substrLower name n)) = [] →
      get_author_profile docs name =
        Except.ok (ProfileResult.notFound ("Author \"" ++ name ++ "\" not found"))) := by
  refine ⟨resolveAuthor_exact _ name, resolveAuthor_first_match _ name, fun hnil => ?_⟩
  unfold get_author_profile
  have hres : resolveAuthor (build_coauthorship_network docs) name = none := by
    unfold resolveAuthor
    rw [hnil]
  rw [hres]

/-- C7, witness (Scenario D): the query `"smith"` is not an exact node name,
and resolves to `"John Smith"`, the first case-insensitive substring match. -/
theorem C7_witness :
    resolveAuthor (build_coauthorship_network scenarioDDocs) "smith" =
      some "John Smith" := by
  have h := (C7_resolution scenarioDDocs "smith").2.1 (by decide)
  rw [h]
  decide

/-- C10, counterexample: on a non-empty graph whose first author has two
undated papers, the empty-string query resolves to that author but the
profile computation raises the missing-year `TypeError` (claim C5's bug),
so no profile record is returned at all — refuting "returns the full
profile of whichever author node comes first". -/
theorem C10_counterexample :
    get_author_profile undatedDocs "" = Except.error "TypeError" ∧
    nodeNames (build_coauthorship_network undatedDocs) ≠ [] := by
  exact ⟨rfl, by decide⟩

/-- C10, amended: on a non-empty collaboration graph none of whose author
names is the empty string, the empty-string query matches every node, is
never an exact match, and therefore resolves to the first node in
iteration order; the call never returns the `NotFound` record, and
whenever it does return a profile (i.e. the year-sorting `TypeError` of C5
does not fire), that profile is the first node's.  (An empty-string author
node would instead win as an exact match, and the `TypeError` can replace
the profile with a raised error — both carve-outs forced by the code.) -/
theorem C10_amended (docs : List Document) (a : String) (rest : List String)
    (h : nodeNames (build_coauthorship_network docs) = a :: rest)
    (hne : "" ∉ nodeNames (build_coauthorship_network docs)) :
    resolveAuthor (build_coauthorship_network docs) "" = some a ∧
    (∀ msg, get_author_profile docs "" ≠ Except.ok (ProfileResult.notFound msg)) ∧
    (∀ pr, get_author_profile docs "" = Except.ok (ProfileResult.profile pr) →
      pr.name = a) := by
  have hfil : (nodeNames (build_coauthorship_network docs)).filter
      (fun n => substrLower "" n) = a :: rest := by
    rw [List.filter_eq_self.mpr (fun n _ => substrLower_empty n), h]
  have hres : resolveAuthor (build_coauthorship_network docs) "" = some a := by
    unfold resolveAuthor
    rw [hfil]
    dsimp only
    have hnot : ¬ ((a :: rest).contains "" = true) := by
      intro hc
      exact hne (h ▸ List.elem_iff.mp hc)
    rw [if_neg hnot]
  have hcont : (nodeNames (build_coauthorship_network docs)).contains a = true :=
    List.elem_iff.mpr (h ▸ List.mem_cons_self a rest)
  have hprof : get_author_profile docs "" =
      profileOf (build_coauthorship_network docs) a := by
    unfold get_author_profile
    rw [hres]
    dsimp only
    rw [if_pos hcont]
  refine ⟨hres, ?_, ?_⟩
  · intro msg
    rw [hprof]
    unfold profileOf
    cases hs : sortPapersYearDesc
        (attrOf (build_coauthorship_network docs) a).papers with
    | error e => exact fun hcontra => Except.noConfusion hcontra
    | ok sorted =>
      intro hcontra
      exact ProfileResult.noConfusion (Except.ok.inj hcontra)
  · intro pr hpr
    rw [hprof] at hpr
    unfold profileOf at hpr
    cases hs : sortPapersYearDesc
        (attrOf (build_coauthorship_network docs) a).papers with
    | error e =>
      rw [hs] at hpr
      exact Except.noConfusion hpr
    | ok sorted =>
      rw [hs] at hpr
      have := ProfileResult.profile.inj (Except.ok.inj hpr)
      rw [← this]
      rfl

/-- C10, witness: with authors `A` then `B` (no empty-named node), the
empty-string query resolves to the first node `A`. -/
theorem C10_witness :
    resolveAuthor (build_coauthorship_network pairDocSnapshot) "" = some "A" := by
  exact (C10_amended pairDocSnapshot "A" ["B"] (by decide) (by decide)).1

/-! ## Claim C8: connectivity reporting -/

/-- C8: whenever the centrality phase completes (the eigenvector outcome is
a success — on a failure the whole result is empty, see C1),
`analyze_author_centrality` reports, for a connected graph, the whole-graph
diameter and average shortest-path length (and no component fields); for a
disconnected graph it reports the component count and the size and
diameter of only the largest component, and never a whole-graph
diameter. -/
theorem C8_connectivity (G : CoGraph) (v : List (String × ℚ))
    (hn : G.nodes.length ≠ 0) :
    (isConnectedBy (nodeNames G) (neighborsOf G) = true →
      (analyze_author_centrality G (Except.ok v)).is_connected = some true ∧
      (analyze_author_centrality G (Except.ok v)).diameter =
        some (diameterBy (nodeNames G) (neighborsOf G)) ∧
      (analyze_author_centrality G (Except.ok v)).average_path_length =
        some (avgPathLenBy (nodeNames G) (neighborsOf G)) ∧
      (analyze_author_centrality G (Except.ok v)).connected_components = none ∧
      (analyze_author_centrality G (Except.ok v)).largest_component_size = none ∧
      (analyze_author_centrality G (Except.ok v)).largest_component_diameter = none) ∧
    (isConnectedBy (nodeNames G) (neighborsOf G) = false →
      (analyze_author_centrality G (Except.ok v)).is_connected = some false ∧
      (analyze_author_centrality G (Except.ok v)).diameter = none ∧
      (analyze_author_centrality G (Except.ok v)).connected_components =
        some (componentsBy (nodeNames G) (neighborsOf G)).length ∧
      (analyze_author_centrality G (Except.ok v)).largest_component_size =
        some (largestComponent G).length ∧
      (analyze_author_centrality G (Except.ok v)).largest_component_diameter =
        some (diameterBy (nodeNames (subgraphOn G (largestComponent G)))
          (neighborsOf (subgraphOn G (largestComponent G))))) := by
  have h0 : (G.nodes.length == 0) = false := beq_eq_false_iff_ne.mpr hn
  constructor
  · intro hc
    unfold analyze_author_centrality
    rw [h0, if_neg Bool.false_ne_true]
    dsimp only
    rw [hc, if_pos rfl]
    exact ⟨rfl, rfl, rfl, rfl, rfl, rfl⟩
  · intro hc
    unfold analyze_author_centrality
    rw [h0, if_neg Bool.false_ne_true]
    dsimp only
    rw [hc, if_neg Bool.false_ne_true]
    exact ⟨rfl, rfl, rfl, rfl, rfl⟩

/-- C8, witness: the connected 2-author graph reports its diameter, while
the disconnected 5-author graph reports component data and no whole-graph
diameter. -/
theorem C8_witness :
    (analyze_author_centrality (build_coauthorship_network pairDocSnapshot)
        (Except.ok [])).diameter =
      some (diameterBy (nodeNames (build_coauthorship_network pairDocSnapshot))
        (neighborsOf (build_coauthorship_network pairDocSnapshot))) ∧
    (analyze_author_centrality (build_coauthorship_network disconnectedDocs)
        (Except.ok [])).diameter = none ∧
    (analyze_author_centrality (build_coauthorship_network disconnectedDocs)
        (Except.ok [])).connected_components =
      some (componentsBy (nodeNames (build_coauthorship_network disconnectedDocs))
        (neighborsOf (build_coauthorship_network disconnectedDocs))).length := by
  have h1 := C8_connectivity (build_coauthorship_network pairDocSnapshot) []
    (by decide)
  have h2 := C8_connectivity (build_coauthorship_network disconnectedDocs) []
    (by decide)
  exact ⟨(h1.1 (by decide)).2.1, (h2.2 (by decide)).2.1, (h2.2 (by decide)).2.2.1⟩
